import Mathlib

/-!
Verification of `src/static/js/medical-app.js` (riteshmorage/major).

Shallow embedding: each JavaScript routine relevant to the claims is
translated into an executable Lean definition; file objects become a
structure of MIME type, byte size and name; functions that `throw` become
functions into `Except String _`; byte counts and times are `Nat`.
-/

set_option autoImplicit false

/-- A browser `File` object, restricted to the fields the code reads:
`file.type` (MIME type string), `file.size` (bytes), `file.name`. -/
structure FileObj where
  type : String
  size : Nat
  name : String
deriving DecidableEq, Repr

/-- Outcome of a JS function that either returns a value or throws an
`Error(msg)`: `Except.error msg` models the throw. -/
def isError {α : Type} : Except String α → Bool
  | .error _ => true
  | .ok _ => false

/-- `validTypes` array of `MedicalApp.validateImage` (line 216). -/
def validTypes : List String :=
  ["image/jpeg", "image/jpg", "image/png", "image/gif", "image/bmp", "image/tiff"]

/-- `maxSize = 16 * 1024 * 1024` (lines 217 and 358). -/
def maxSize : Nat := 16 * 1024 * 1024

/-- `MedicalApp.validateImage` (lines 215-228): throws on a MIME type
outside `validTypes`, throws when `file.size > maxSize`, otherwise
returns `true`. -/
def validateImage (file : FileObj) : Except String Bool :=
  if file.type ∈ validTypes then
    if file.size > maxSize then
      .error "File too large. Maximum size is 16MB"
    else
      .ok true
  else
    .error "Invalid file type. Please upload an image file (JPEG, PNG, GIF, BMP, TIFF)"

/-- `allowedTypes` array of `SecurityUtils.secureFileUpload` (line 357).
Note it does not contain "image/jpg". -/
def allowedTypes : List String :=
  ["image/jpeg", "image/png", "image/gif", "image/bmp", "image/tiff"]

/-- `dangerousExtensions` array (line 370). -/
def dangerousExtensions : List String :=
  [".exe", ".bat", ".cmd", ".scr", ".pif", ".com"]

/-- `pat` is a prefix of `l`, character by character: the base step of the
JS `String.prototype.includes` substring test. -/
def listStartsWith : List Char → List Char → Bool
  | [], _ => true
  | _ :: _, [] => false
  | a :: as, b :: bs => a = b && listStartsWith as bs

/-- `pat` occurs contiguously somewhere in `l`. -/
def listContainsSub (pat : List Char) : List Char → Bool
  | [] => listStartsWith pat []
  | c :: cs => listStartsWith pat (c :: cs) || listContainsSub pat cs

/-- JS `s.includes(pat)`: substring containment. -/
def strContains (s pat : String) : Bool :=
  listContainsSub pat.toList s.toList

/-- JS `s.toLowerCase()`, character by character (ASCII case mapping, which
covers every filename and extension in the code and the claims). -/
def strToLower (s : String) : String :=
  String.mk (s.toList.map Char.toLower)

/-- `SecurityUtils.secureFileUpload` (lines 355-379): rejects MIME types
outside `allowedTypes`, sizes over `maxSize`, and any file whose
lowercased name contains a dangerous extension as a substring anywhere
(the JS loops over `dangerousExtensions` and throws at the first
`fileName.includes(ext)` hit; the observable result is the same as this
`any`). -/
def secureFileUpload (file : FileObj) : Except String Bool :=
  if file.type ∈ allowedTypes then
    if file.size > maxSize then
      .error "File too large"
    else
      if dangerousExtensions.any (fun ext => strContains (strToLower file.name) ext) then
        .error "Potentially dangerous file detected"
      else
        .ok true
  else
    .error "Invalid file type"

/-- C1: `validateImage` returns `true` exactly on an allow-listed MIME type
with size at most 16 MiB, and throws otherwise; in particular it throws for
`application/pdf`, accepts a small `image/png`, and throws at 17 MiB. -/
theorem claim1_validateImage (f : FileObj) :
    (f.type ∈ validTypes ∧ f.size ≤ maxSize → validateImage f = .ok true)
    ∧ (f.type ∉ validTypes ∨ maxSize < f.size → isError (validateImage f) = true)
    ∧ isError (validateImage ⟨"application/pdf", 100, "a.pdf"⟩) = true
    ∧ validateImage ⟨"image/png", 100, "a.png"⟩ = .ok true
    ∧ isError (validateImage ⟨"image/png", 17 * 1024 * 1024, "a.png"⟩) = true := by
  refine ⟨?_, ?_, by decide, rfl, by decide⟩
  · rintro ⟨ht, hs⟩
    simp [validateImage, ht, Nat.not_lt.mpr hs]
  · rintro (ht | hs)
    · simp [validateImage, isError, ht]
    · rcases Decidable.em (f.type ∈ validTypes) with h | h <;>
        simp [validateImage, isError, h, hs]

/-- Concrete instantiation of `claim1_validateImage` discharging its
hypotheses. -/
theorem claim1_validateImage_witness :
    validateImage ⟨"image/gif", 5, "b.gif"⟩ = .ok true ∧
      isError (validateImage ⟨"text/html", 5, "b.html"⟩) = true :=
  ⟨(claim1_validateImage ⟨"image/gif", 5, "b.gif"⟩).1 ⟨by decide, by decide⟩,
   (claim1_validateImage ⟨"text/html", 5, "b.html"⟩).2.1 (Or.inl (by decide))⟩

/-- C2: once MIME type and size pass, `secureFileUpload` throws exactly when
the lowercased filename contains a denylisted extension as a substring
anywhere in the name; `report.exe` and `my.exe.png` are rejected,
`photo.png` is accepted. -/
theorem claim2_secureFileUpload (f : FileObj)
    (ht : f.type ∈ allowedTypes) (hs : f.size ≤ maxSize) :
    (isError (secureFileUpload f)
      = dangerousExtensions.any (fun ext => strContains (strToLower f.name) ext))
    ∧ isError (secureFileUpload ⟨"image/png", 100, "report.exe"⟩) = true
    ∧ isError (secureFileUpload ⟨"image/png", 100, "my.exe.png"⟩) = true
    ∧ secureFileUpload ⟨"image/png", 100, "photo.png"⟩ = .ok true := by
  refine ⟨?_, by decide, by decide, rfl⟩
  rcases hd : dangerousExtensions.any (fun ext => strContains (strToLower f.name) ext) with _ | _ <;>
    simp [secureFileUpload, isError, ht, Nat.not_lt.mpr hs, hd]

/-- Concrete instantiation of `claim2_secureFileUpload` discharging its
hypotheses. -/
theorem claim2_secureFileUpload_witness :
    isError (secureFileUpload ⟨"image/gif", 7, "virus.exe"⟩)
      = dangerousExtensions.any (fun ext => strContains (strToLower "virus.exe") ext) :=
  (claim2_secureFileUpload ⟨"image/gif", 7, "virus.exe"⟩ (by decide) (by decide)).1

/-- C8 counterexample: a clean, small file with MIME type `image/jpg` is
rejected by `secureFileUpload` with `Invalid file type`, not accepted,
because its `allowedTypes` array omits "image/jpg". -/
theorem claim8_counterexample :
    secureFileUpload ⟨"image/jpg", 100, "photo.png"⟩ = .error "Invalid file type"
    ∧ ("image/jpg" ∈ allowedTypes) = False := by
  exact ⟨rfl, by simp [allowedTypes]⟩

/-- C8 amended: `secureFileUpload` uses the allow-list
{image/jpeg, image/png, image/gif, image/bmp, image/tiff}; every file with
MIME type `image/jpg` throws `Invalid file type`, while an `image/jpeg`
file of size at most 16 MiB and a clean filename returns true. -/
theorem claim8_amended :
    (∀ f : FileObj, f.type = "image/jpg" →
      secureFileUpload f = .error "Invalid file type")
    ∧ (∀ f : FileObj, f.type = "image/jpeg" → f.size ≤ maxSize →
        dangerousExtensions.any (fun ext => strContains (strToLower f.name) ext) = false →
        secureFileUpload f = .ok true) := by
  constructor
  · intro f ht
    unfold secureFileUpload
    rw [ht, if_neg (by decide)]
  · intro f ht hs hclean
    unfold secureFileUpload
    rw [ht, if_pos (by decide), if_neg (Nat.not_lt.mpr hs), if_neg (by simp [hclean])]

/-- Concrete instantiation of `claim8_amended` discharging its
hypotheses. -/
theorem claim8_amended_witness :
    secureFileUpload ⟨"image/jpg", 3, "x.png"⟩ = .error "Invalid file type"
    ∧ secureFileUpload ⟨"image/jpeg", 3, "x.jpeg"⟩ = .ok true :=
  ⟨claim8_amended.1 ⟨"image/jpg", 3, "x.png"⟩ rfl,
   claim8_amended.2 ⟨"image/jpeg", 3, "x.jpeg"⟩ rfl (by decide) (by decide)⟩

/-- The double-quote character, written by code point to keep it apart from
string delimiters. -/
def dquote : Char := Char.ofNat 34

/-- The apostrophe character, written by code point. -/
def squote : Char := Char.ofNat 39

/-- Escaping of one character performed by reading back `div.innerHTML`
after `div.textContent = str` (lines 344-348): the HTML fragment
serialization of a text node replaces `&`, `<`, `>` and U+00A0 by entities
and leaves every other character, including both quote characters,
unchanged. -/
def escapeChar (c : Char) : List Char :=
  if c = '&' then "&amp;".toList
  else if c = '<' then "&lt;".toList
  else if c = '>' then "&gt;".toList
  else if c = Char.ofNat 160 then "&nbsp;".toList
  else [c]

/-- Character-by-character serialization of a text node's data. -/
def escapeList : List Char → List Char
  | [] => []
  | c :: cs => escapeChar c ++ escapeList cs

/-- `SecurityUtils.sanitizeHTML` (lines 344-348): creates a `div`, assigns
the string as `textContent`, and returns `innerHTML`, i.e. the text-node
serialization of the string. -/
def sanitizeHTML (s : String) : String :=
  String.mk (escapeList s.toList)

/-- Helper: how one serialized character relates to `<`, `>`, and the two
quote characters. -/
theorem escapeChar_props (c : Char) :
    '<' ∉ escapeChar c ∧ '>' ∉ escapeChar c
    ∧ (escapeChar c).count dquote = (if c = dquote then 1 else 0)
    ∧ (escapeChar c).count squote = (if c = squote then 1 else 0)
    ∧ (escapeChar c).count '&'
        = (if c = '&' ∨ c = '<' ∨ c = '>' ∨ c = Char.ofNat 160 then 1 else 0) := by
  unfold escapeChar
  rcases Decidable.em (c = '&') with h1 | h1
  · subst h1; decide
  · rcases Decidable.em (c = '<') with h2 | h2
    · subst h2; decide
    · rcases Decidable.em (c = '>') with h3 | h3
      · subst h3; decide
      · rcases Decidable.em (c = Char.ofNat 160) with h4 | h4
        · subst h4; decide
        · simp only [h1, h2, h3, h4, if_false, if_neg]
          refine ⟨by simpa using Ne.symm h2, by simpa using Ne.symm h3, ?_, ?_, ?_⟩
          · rcases Decidable.em (c = dquote) with h | h <;> simp [h, List.count_singleton]
          · rcases Decidable.em (c = squote) with h | h <;> simp [h, List.count_singleton]
          · simp [h1, h2, h3, h4, List.count_singleton]

/-- Helper: the serialization of a whole string contains no raw `<` or `>`,
preserves both quote characters verbatim, and emits one `&` for every
escaped character. -/
theorem escapeList_props (l : List Char) :
    '<' ∉ escapeList l ∧ '>' ∉ escapeList l
    ∧ (escapeList l).count dquote = l.count dquote
    ∧ (escapeList l).count squote = l.count squote
    ∧ (escapeList l).count '&'
        = l.count '&' + l.count '<' + l.count '>' + l.count (Char.ofNat 160) := by
  induction l with
  | nil => simp [escapeList]
  | cons c cs ih =>
    obtain ⟨ih1, ih2, ih3, ih4, ih5⟩ := ih
    obtain ⟨e1, e2, e3, e4, e5⟩ := escapeChar_props c
    refine ⟨?_, ?_, ?_, ?_, ?_⟩
    · simp [escapeList, e1, ih1]
    · simp [escapeList, e2, ih2]
    · simp only [escapeList, List.count_append, List.count_cons, ih3, e3]
      rcases Decidable.em (c = dquote) with h | h <;> simp [h] <;> omega
    · simp only [escapeList, List.count_append, List.count_cons, ih4, e4]
      rcases Decidable.em (c = squote) with h | h <;> simp [h] <;> omega
    · simp only [escapeList, List.count_append, List.count_cons, ih5, e5]
      rcases Decidable.em (c = '&') with h1 | h1 <;>
        rcases Decidable.em (c = '<') with h2 | h2 <;>
          rcases Decidable.em (c = '>') with h3 | h3 <;>
            rcases Decidable.em (c = Char.ofNat 160) with h4 | h4 <;>
              simp_all <;> omega

/-- C3 counterexample: `sanitizeHTML` maps the one-character string
consisting of a double quote to itself, so the double quote (and likewise
the apostrophe) appears raw, not escaped, in the output. -/
theorem claim3_counterexample :
    sanitizeHTML (String.mk [dquote]) = String.mk [dquote]
    ∧ dquote ∈ (sanitizeHTML (String.mk [dquote])).toList
    ∧ sanitizeHTML (String.mk [squote]) = String.mk [squote] := by
  refine ⟨by decide, by decide, by decide⟩

/-- C3 amended: `sanitizeHTML` escapes `&`, `<`, `>` (and U+00A0) — its
output contains no raw `<` or `>`, and exactly one `&` per escaped
character — but passes `"` and `'` through unchanged, so it is safe for
element text content but not for all five HTML-significant characters. -/
theorem claim3_amended (s : String) :
    '<' ∉ (sanitizeHTML s).toList ∧ '>' ∉ (sanitizeHTML s).toList
    ∧ (sanitizeHTML s).toList.count dquote = s.toList.count dquote
    ∧ (sanitizeHTML s).toList.count squote = s.toList.count squote
    ∧ (sanitizeHTML s).toList.count '&'
        = s.toList.count '&' + s.toList.count '<' + s.toList.count '>'
            + s.toList.count (Char.ofNat 160) := by
  have h : (sanitizeHTML s).toList = escapeList s.toList := rfl
  rw [h]
  exact escapeList_props s.toList

/-- DOM `classList.add`: appends the class if it is not already present. -/
def classAdd (c : String) (l : List String) : List String :=
  if c ∈ l then l else l ++ [c]

/-- DOM `classList.remove`: deletes every occurrence of the class. -/
def classRemove (c : String) (l : List String) : List String :=
  l.filter (fun x => x ≠ c)

/-- `MedicalApp.handleResponsiveLayout` (lines 124-140): given
`window.innerWidth` and the current class list of `document.body`, adds
`mobile-layout` when width < 768 and removes it otherwise, then adds
`tablet-layout` when 768 <= width < 992 and removes it otherwise. -/
def handleResponsiveLayout (width : Nat) (body : List String) : List String :=
  let b1 := if width < 768 then classAdd "mobile-layout" body
            else classRemove "mobile-layout" body
  if 768 ≤ width ∧ width < 992 then classAdd "tablet-layout" b1
  else classRemove "tablet-layout" b1

/-- Helper: membership in a class list after `classList.add`. -/
theorem mem_classAdd (c d : String) (l : List String) :
    d ∈ classAdd c l ↔ d = c ∨ d ∈ l := by
  unfold classAdd
  rcases Decidable.em (c ∈ l) with h | h
  · rw [if_pos h]
    constructor
    · exact fun hd => Or.inr hd
    · rintro (rfl | hd)
      · exact h
      · exact hd
  · rw [if_neg h]
    simp only [List.mem_append, List.mem_singleton]
    tauto

/-- Helper: membership in a class list after `classList.remove`. -/
theorem mem_classRemove (c d : String) (l : List String) :
    d ∈ classRemove c l ↔ d ∈ l ∧ d ≠ c := by
  simp [classRemove]

/-- C9: after `handleResponsiveLayout` runs for width `w`, the body carries
`mobile-layout` exactly when w < 768 and `tablet-layout` exactly when
768 <= w < 992, never both; widths 500, 800 and 1200 give mobile-only,
tablet-only and neither. -/
theorem claim9_handleResponsiveLayout (w : Nat) (body : List String) :
    ("mobile-layout" ∈ handleResponsiveLayout w body ↔ w < 768)
    ∧ ("tablet-layout" ∈ handleResponsiveLayout w body ↔ 768 ≤ w ∧ w < 992)
    ∧ ¬("mobile-layout" ∈ handleResponsiveLayout w body
        ∧ "tablet-layout" ∈ handleResponsiveLayout w body)
    ∧ ("mobile-layout" ∈ handleResponsiveLayout 500 []
        ∧ "tablet-layout" ∉ handleResponsiveLayout 500 [])
    ∧ ("tablet-layout" ∈ handleResponsiveLayout 800 []
        ∧ "mobile-layout" ∉ handleResponsiveLayout 800 [])
    ∧ ("mobile-layout" ∉ handleResponsiveLayout 1200 []
        ∧ "tablet-layout" ∉ handleResponsiveLayout 1200 []) := by
  have hmob : "mobile-layout" ∈ handleResponsiveLayout w body ↔ w < 768 := by
    unfold handleResponsiveLayout
    rcases Decidable.em (w < 768) with h | h
    · have hnt : ¬(768 ≤ w ∧ w < 992) := fun hc => h.not_le hc.1
      simp [h, hnt, mem_classAdd, mem_classRemove]
    · rcases Decidable.em (768 ≤ w ∧ w < 992) with h2 | h2 <;>
        simp [h, h2, mem_classAdd, mem_classRemove]
  have htab : "tablet-layout" ∈ handleResponsiveLayout w body ↔ 768 ≤ w ∧ w < 992 := by
    unfold handleResponsiveLayout
    rcases Decidable.em (768 ≤ w ∧ w < 992) with h2 | h2 <;>
      rcases Decidable.em (w < 768) with h | h <;>
        simp [h, h2, mem_classAdd, mem_classRemove]
  refine ⟨hmob, htab, ?_, by decide, by decide, by decide⟩
  rintro ⟨hm, ht⟩
  exact ((hmob.mp hm).not_le (htab.mp ht).1)

/-- Outcome of one evaluation of the expression `bootstrap.Modal.getInstance(modal)`
(line 110): in JS, reading the identifier `bootstrap` when no such global
exists throws a `ReferenceError`. -/
def resolveBootstrapAccess (bootstrapDefined : Bool) : Except String Unit :=
  if bootstrapDefined then .ok ()
  else .error "ReferenceError: bootstrap is not defined"

/-- Escape branch of the keydown handler installed by
`MedicalApp.setupKeyboardNavigation` (lines 105-115): it iterates over the
elements matching `.modal.show` (here just their count) and evaluates
`bootstrap.Modal.getInstance(modal)` for each, without any presence guard
on the `bootstrap` global. -/
def escapeKeyHandler (bootstrapDefined : Bool) : Nat → Except String Unit
  | 0 => .ok ()
  | n + 1 =>
    match resolveBootstrapAccess bootstrapDefined with
    | .error e => .error e
    | .ok _ => escapeKeyHandler bootstrapDefined n

/-- Tooltip part of `MedicalApp.initializeComponents` (lines 45-52): the
whole block is guarded by `typeof bootstrap !== 'undefined'`, so when the
global is absent the `tooltipTriggers` elements are never touched and the
global is never read. -/
def initializeComponents (bootstrapDefined : Bool) (tooltipTriggers : Nat) :
    Except String Unit :=
  if bootstrapDefined then
    (List.range tooltipTriggers).foldl (fun acc _ =>
      match acc with
      | .error e => .error e
      | .ok _ => resolveBootstrapAccess bootstrapDefined) (.ok ())
  else .ok ()

/-- C10 counterexample: with the Bootstrap global absent and one element of
class `modal show` in the document, pressing Escape evaluates
`bootstrap.Modal.getInstance` and faults with a ReferenceError, so a
handler installed by MedicalApp does access the absent global. -/
theorem claim10_counterexample :
    escapeKeyHandler false 1 = .error "ReferenceError: bootstrap is not defined" := rfl

/-- C10 amended: tooltip initialization is guarded and never reads the
absent global, and the Escape handler is safe when no `.modal.show`
element exists; but with at least one open modal and no Bootstrap global
the Escape handler throws a ReferenceError, while with the global present
it never faults. -/
theorem claim10_amended :
    (∀ n : Nat, initializeComponents false n = .ok ())
    ∧ (∀ b : Bool, escapeKeyHandler b 0 = .ok ())
    ∧ (∀ n : Nat, 0 < n →
        escapeKeyHandler false n = .error "ReferenceError: bootstrap is not defined")
    ∧ (∀ n : Nat, escapeKeyHandler true n = .ok ()) := by
  refine ⟨fun n => rfl, fun b => rfl, ?_, ?_⟩
  · intro n hn
    match n, hn with
    | n + 1, _ => rfl
  · intro n
    induction n with
    | zero => rfl
    | succ m ih => simpa [escapeKeyHandler, resolveBootstrapAccess] using ih

/-- Concrete instantiation of `claim10_amended` discharging its
hypothesis. -/
theorem claim10_amended_witness :
    escapeKeyHandler false 2 = .error "ReferenceError: bootstrap is not defined" :=
  claim10_amended.2.2.1 2 (by decide)

/-- Concrete instantiation of `claim3_amended` at a string holding all five
HTML-significant characters. -/
theorem claim3_amended_witness :
    '<' ∉ (sanitizeHTML (String.mk ['&', '<', '>', dquote, squote])).toList :=
  (claim3_amended (String.mk ['&', '<', '>', dquote, squote])).1

/-- Concrete instantiation of `claim9_handleResponsiveLayout` at width 500
and a body already carrying `tablet-layout`. -/
theorem claim9_witness :
    "mobile-layout" ∈ handleResponsiveLayout 500 ["tablet-layout"] :=
  (claim9_handleResponsiveLayout 500 ["tablet-layout"]).1.mpr (by decide)

/-- A timed call to a wrapped function: (time in ms, identifier of the
argument tuple passed at that call). -/
abbrev TimedCall := Nat × Nat

/-- `Utils.debounce(func, wait)` with `immediate` falsy (lines 489-501),
run over a time-ordered list of calls to the wrapped function. The state
is the pending `setTimeout` as `some (fireTime, args)`. Each call first
lets a timer strictly due before it fire (producing one invocation of
`func` with the stored arguments), then does `clearTimeout` plus
`setTimeout(later, wait)` with its own arguments; after the last call the
surviving timer fires. Returns the invocations of `func` as
(time, args). -/
def debounceTrailing (wait : Nat) (pending : Option TimedCall) :
    List TimedCall → List TimedCall
  | [] =>
    match pending with
    | none => []
    | some p => [p]
  | (t, a) :: rest =>
    match pending with
    | some (ft, pa) =>
      if ft ≤ t then (ft, pa) :: debounceTrailing wait (some (t + wait, a)) rest
      else debounceTrailing wait (some (t + wait, a)) rest
    | none => debounceTrailing wait (some (t + wait, a)) rest

/-- `Utils.debounce(func, wait, immediate)` with `immediate` truthy: a call
invokes `func` at once exactly when no timeout is pending (`callNow`); the
timer itself only clears the `timeout` variable. State is the pending
timer's fire time. -/
def debounceImmediate (wait : Nat) (pending : Option Nat) :
    List TimedCall → List TimedCall
  | [] => []
  | (t, a) :: rest =>
    let cleared : Option Nat :=
      match pending with
      | some ft => if ft ≤ t then none else some ft
      | none => none
    match cleared with
    | none => (t, a) :: debounceImmediate wait (some (t + wait)) rest
    | some _ => debounceImmediate wait (some (t + wait)) rest

/-- Every call in the list happens at or after time `t` and strictly within
`wait` ms of the previous one (the previous call being at `t`). -/
def chainedWithin (wait : Nat) : Nat → List TimedCall → Bool
  | _, [] => true
  | t, (u, _) :: rest => (decide (t ≤ u) && decide (u < t + wait)) && chainedWithin wait u rest

/-- Helper: while every next call lands strictly before the pending timer
fires, the timer keeps being reset, and the single surviving invocation is
the last call's arguments at its time plus `wait`. -/
theorem debounceTrailing_chain (wait : Nat) :
    ∀ (calls : List TimedCall) (t a : Nat), chainedWithin wait t calls = true →
      debounceTrailing wait (some (t + wait, a)) calls
        = [((calls.getLastD (t, a)).1 + wait, (calls.getLastD (t, a)).2)] := by
  intro calls
  induction calls with
  | nil => intro t a _; rfl
  | cons ub rest ih =>
    intro t a hchain
    obtain ⟨u, b⟩ := ub
    simp only [chainedWithin, Bool.and_eq_true, decide_eq_true_eq] at hchain
    obtain ⟨⟨htu, hlt⟩, hrest⟩ := hchain
    have hnot : ¬ (t + wait ≤ u) := Nat.not_le.mpr hlt
    simp only [debounceTrailing, if_neg hnot, List.getLastD_cons]
    exact ih u b hrest

/-- C4: with `immediate` falsy, a nonempty run of calls each striking
strictly within `wait` ms of the previous one yields exactly one invocation
of `func`, at `wait` ms after the last call and with the last call's
arguments; with `immediate` truthy, the leading call fires at once. The
concrete case of the spec: 5 calls within 50 ms under `debounce(fn, 100)`
invoke `fn` once, at 100 ms after the 5th call, with its arguments. -/
theorem claim4_debounce (wait t a : Nat) (calls : List TimedCall)
    (hchain : chainedWithin wait t calls = true) :
    (debounceTrailing wait none ((t, a) :: calls)
      = [((calls.getLastD (t, a)).1 + wait, (calls.getLastD (t, a)).2)])
    ∧ (∀ rest : List TimedCall, ∃ tail,
        debounceImmediate wait none ((t, a) :: rest) = (t, a) :: tail)
    ∧ debounceTrailing 100 none [(0, 1), (10, 2), (20, 3), (30, 4), (50, 5)]
        = [(150, 5)] := by
  refine ⟨?_, ?_, by decide⟩
  · show debounceTrailing wait (some (t + wait, a)) calls = _
    exact debounceTrailing_chain wait calls t a hchain
  · intro rest
    exact ⟨debounceImmediate wait (some (t + wait)) rest, rfl⟩

/-- Concrete instantiation of `claim4_debounce` discharging its
hypothesis. -/
theorem claim4_debounce_witness :
    debounceTrailing 100 none [(0, 1), (10, 2), (20, 3), (30, 4), (50, 5)]
      = [(150, 5)] :=
  (claim4_debounce 100 0 1 [(10, 2), (20, 3), (30, 4), (50, 5)] (by decide)).1

/-- `Utils.throttle(func, limit)` (lines 503-512), run over a time-ordered
list of calls. State is `some unlockTime` while `inThrottle` is true: the
`setTimeout` scheduled at the locking call resets `inThrottle` at
`callTime + limit`, so a later call finds the lock released exactly when
its time is at least `unlockTime`. An unlocked call invokes `func`
immediately (recorded as (time, args)) and re-locks; a locked call is
dropped. -/
def throttleRun (limit : Nat) (lock : Option Nat) :
    List TimedCall → List TimedCall
  | [] => []
  | (t, a) :: rest =>
    let locked : Bool :=
      match lock with
      | some ut => decide (t < ut)
      | none => false
    if locked then throttleRun limit lock rest
    else (t, a) :: throttleRun limit (some (t + limit)) rest

/-- C5: the first call from the unlocked state invokes `func` immediately
and locks for `limit` ms; any call strictly inside the lock window is
dropped without being queued; a call at or after the unlock time invokes
`func` again; and 5 instantaneous calls under `throttle(fn, 100)` produce
exactly the first invocation, with a 6th call at 150 ms invoking again. -/
theorem claim5_throttle (limit ut t a : Nat) (rest : List TimedCall) :
    (∃ tail, throttleRun limit none ((t, a) :: rest)
      = (t, a) :: tail ∧ tail = throttleRun limit (some (t + limit)) rest)
    ∧ (t < ut → throttleRun limit (some ut) ((t, a) :: rest)
        = throttleRun limit (some ut) rest)
    ∧ (ut ≤ t → throttleRun limit (some ut) ((t, a) :: rest)
        = (t, a) :: throttleRun limit (some (t + limit)) rest)
    ∧ throttleRun 100 none [(0, 1), (0, 2), (0, 3), (0, 4), (0, 5), (150, 6)]
        = [(0, 1), (150, 6)] := by
  refine ⟨⟨throttleRun limit (some (t + limit)) rest, rfl, rfl⟩, ?_, ?_, by decide⟩
  · intro hlt
    simp only [throttleRun, decide_eq_true_eq]
    rw [if_pos]
    simpa using hlt
  · intro hge
    simp only [throttleRun, decide_eq_true_eq]
    rw [if_neg]
    simpa using Nat.not_lt.mpr hge

/-- Concrete instantiation of `claim5_throttle` discharging its
hypotheses. -/
theorem claim5_throttle_witness :
    throttleRun 100 (some 100) [(50, 9)] = throttleRun 100 (some 100) []
    ∧ throttleRun 100 (some 100) [(150, 9)] = [(150, 9)] := by
  constructor
  · exact (claim5_throttle 100 100 50 9 []).2.1 (by decide)
  · have h := (claim5_throttle 100 100 150 9 []).2.2.1 (by decide)
    simpa [throttleRun] using h

/-- `sizes` array of `Utils.formatBytes` (line 518). -/
def sizesFull : List String :=
  ["Bytes", "KB", "MB", "GB", "TB", "PB", "EB", "ZB", "YB"]

/-- `sizes` array of `MedicalApp.formatFileSize` (line 200): it stops at
"GB". -/
def sizesShort : List String :=
  ["Bytes", "KB", "MB", "GB"]

/-- `i = Math.floor(Math.log(bytes) / Math.log(1024))` (lines 201 and 519),
modelled as the exact floor of the base-1024 logarithm, written as the
comparison chain over the nine magnitudes the `sizes` array can cover.
Caveat: the source computes the quotient in double precision, which agrees
with this exact floor on every count below 1024^4 (the whole range claim
C7 quantifies over: there the true quotient is hundreds of ulps away from
the nearest integer, beyond any libm rounding error) but rounds up to the
next integer on narrow windows just below higher powers of 1024 — at
counts within 3 of 2^50 the double quotient is exactly 5.0 while this
exact floor is 4; see the claim C6 record. -/
def byteUnit (n : Nat) : Nat :=
  if n < 1024 then 0
  else if n < 1024 ^ 2 then 1
  else if n < 1024 ^ 3 then 2
  else if n < 1024 ^ 4 then 3
  else if n < 1024 ^ 5 then 4
  else if n < 1024 ^ 6 then 5
  else if n < 1024 ^ 7 then 6
  else if n < 1024 ^ 8 then 7
  else 8

/-- `(bytes / Math.pow(1024, i)).toFixed(dm)` as an integer numerator over
10^dm: `bytes / 1024^i` is a dyadic rational held exactly by the double, and
`toFixed` picks the nearest multiple of 10^(-dm), ties upward, which is
`floor(x * 10^dm + 1/2)`. -/
def toFixedRound (dm i bytes : Nat) : Nat :=
  (bytes * 10 ^ dm * 2 + 1024 ^ i) / (2 * 1024 ^ i)

/-- Left-pads a digit string to `dm` digits with zeros. -/
def padLeftZeros (dm : Nat) (s : List Char) : List Char :=
  List.replicate (dm - s.length) '0' ++ s

/-- Drops trailing zeros of a fraction part. -/
def dropTrailingZeros (s : List Char) : List Char :=
  (s.reverse.dropWhile (fun c => c = '0')).reverse

/-- `parseFloat(x.toFixed(dm))` rendered back as JS does when the number is
interpolated into a string: the fixed-point decimal with its trailing
fraction zeros (and a then-empty fraction point) removed. `rounded` is the
scaled numerator produced by `toFixedRound`. -/
def renderFixedTrimmed (dm rounded : Nat) : String :=
  let q := rounded / 10 ^ dm
  let f := rounded % 10 ^ dm
  let frac := dropTrailingZeros (padLeftZeros dm (Nat.repr f).toList)
  if frac.isEmpty then Nat.repr q
  else Nat.repr q ++ "." ++ String.mk frac

/-- `Utils.formatBytes(bytes, decimals)` (lines 514-521); the JS default for
`decimals` is 2, and `dm = decimals < 0 ? 0 : decimals` is `Int.toNat`. -/
def formatBytes (bytes : Nat) (decimals : Int) : String :=
  if bytes = 0 then "0 Bytes"
  else
    let dm := decimals.toNat
    let i := byteUnit bytes
    renderFixedTrimmed dm (toFixedRound dm i bytes) ++ " " ++ sizesFull.getD i "undefined"

/-- `MedicalApp.formatFileSize(bytes)` (lines 197-203): same computation
with decimals fixed at 2 and the four-element `sizes` array; `sizes[i]` for
`i` past the end is JS `undefined`, which string concatenation renders as
"undefined". -/
def formatFileSize (bytes : Nat) : String :=
  if bytes = 0 then "0 Bytes"
  else
    let i := byteUnit bytes
    renderFixedTrimmed 2 (toFixedRound 2 i bytes) ++ " " ++ sizesShort.getD i "undefined"

/-- Helper: within the range of the `sizes` array, `byteUnit` is the unique
floor of the base-1024 logarithm. -/
theorem byteUnit_bounds (n : Nat) (h0 : 0 < n) (h9 : n < 1024 ^ 9) :
    1024 ^ byteUnit n ≤ n ∧ n < 1024 ^ (byteUnit n + 1) := by
  unfold byteUnit
  split_ifs <;> norm_num at * <;> omega

/-- Helper: the embedded unit chain agrees with the mathematical base-1024
logarithm on the whole range the `sizes` array covers. -/
theorem byteUnit_eq_log (n : Nat) (h0 : 0 < n) (h9 : n < 1024 ^ 9) :
    byteUnit n = Nat.log 1024 n := by
  obtain ⟨h1, h2⟩ := byteUnit_bounds n h0 h9
  exact (Nat.log_eq_of_pow_le_of_lt_pow h1 h2).symm

/-- C6: the three concrete examples of the claim hold (0 maps to
"0 Bytes", 1024 to "1 KB", 1536 at one decimal to "1.5 KB"; at these
inputs the double-precision quotient in the source is exact, so the model
and the program agree), but the universal largest-unit rule is violated by
the program at `bytes = 2^50 - 1`: there the double quotient
`Math.log(bytes) / Math.log(1024)` rounds to exactly 5.0, so the source
selects `sizes[5]` ("PB") although `2^50 - 1 < 1024^5`, i.e. the scaled
value is below 1. This theorem evaluates the intended (exact-floor)
semantics at that failing input: the largest unit whose scaled value is at
least 1 is index 4 ("TB"), giving "1024 TB" — not the "1 PB" the program
prints. -/
theorem claim6_formatBytes_fp_divergence :
    formatBytes 0 2 = "0 Bytes"
    ∧ formatBytes 1024 2 = "1 KB"
    ∧ formatBytes 1536 1 = "1.5 KB"
    ∧ 2 ^ 50 - 1 < 1024 ^ 5
    ∧ byteUnit (2 ^ 50 - 1) = 4
    ∧ sizesFull.getD 4 "undefined" = "TB"
    ∧ sizesFull.getD 5 "undefined" = "PB"
    ∧ formatBytes (2 ^ 50 - 1) 2 = "1024 TB" := by
  refine ⟨by decide, by decide, by decide, by decide, by decide, rfl, rfl, by decide⟩

/-- C7 counterexample: at one tebibyte the two formatters disagree:
`formatFileSize` runs off the end of its four-element `sizes` array and
yields "1 undefined", while `formatBytes` yields "1 TB". -/
theorem claim7_counterexample :
    formatFileSize (1024 ^ 4) = "1 undefined"
    ∧ formatBytes (1024 ^ 4) 2 = "1 TB"
    ∧ formatFileSize (1024 ^ 4) ≠ formatBytes (1024 ^ 4) 2 := by
  refine ⟨by decide, by decide, by decide⟩

/-- C7 amended: the two formatters agree on every byte count below 1024^4
(the range of `formatFileSize`'s unit array, i.e. up to the GB scale);
beyond it `formatFileSize` produces "undefined" units. -/
theorem claim7_amended (b : Nat) (hb : b < 1024 ^ 4) :
    formatFileSize b = formatBytes b 2 := by
  rcases Nat.eq_zero_or_pos b with rfl | hpos
  · rfl
  · have h9 : b < 1024 ^ 9 := lt_of_lt_of_le hb (by norm_num)
    have hi : byteUnit b < 4 := by
      have h1 := (byteUnit_bounds b hpos h9).1
      by_contra hge
      have : (1024 : Nat) ^ 4 ≤ 1024 ^ byteUnit b :=
        Nat.pow_le_pow_right (by norm_num) (Nat.not_lt.mp hge)
      omega
    have hsz : sizesShort.getD (byteUnit b) "undefined"
        = sizesFull.getD (byteUnit b) "undefined" := by
      have hcases : byteUnit b = 0 ∨ byteUnit b = 1 ∨ byteUnit b = 2 ∨ byteUnit b = 3 := by
        omega
      rcases hcases with h | h | h | h <;> rw [h] <;> rfl
    unfold formatFileSize formatBytes
    rw [if_neg (Nat.pos_iff_ne_zero.mp hpos), if_neg (Nat.pos_iff_ne_zero.mp hpos)]
    simp only [hsz]
    rfl

/-- Concrete instantiation of `claim7_amended` discharging its
hypothesis. -/
theorem claim7_amended_witness : formatFileSize 1536 = formatBytes 1536 2 :=
  claim7_amended 1536 (by norm_num)
